import Mathlib

/-!
Verification of the Nautilink provenance-ledger program
(`src/web3/programs/nautilink/src/lib.rs`).

The program keeps `CrateRecord` accounts describing physical crates and
six instructions over them: `create_crate`, `transfer_ownership`,
`mix_crates`, `split_crate`, `update_parent_children`,
`update_child_parent`.

Shallow embedding conventions:
- `Pubkey` (a 32-byte account address) is abstracted as `Nat`.
- `u32` arithmetic is `Nat` with explicit bounds: `checked_add` fails
  above `u32::MAX = 4294967295`; the unchecked `iter().sum()` used by
  `split_crate` wraps modulo `2^32` (release-profile Rust semantics).
- Each instruction becomes a pure function returning
  `Except ErrorCode CrateRecord`: `Except.ok r` is the record state the
  instruction writes, `Except.error e` is the failing `require!`; a
  failed instruction writes nothing.
- Anchor `init` zero-initializes the new account, so every field the
  instruction does not assign (only `split_distribution`, outside
  `split_crate`) deserializes as the empty vector.
- Accounts passed by reference carry both their address (`*_key : Pubkey`,
  what `.key()` returns) and their deserialized data (`CrateRecord`).
  The parents of `mix_crates` arrive through `ctx.remaining_accounts`,
  a list of records independent of the `parent_keys` argument.
-/

namespace Nautilink

/-- Account addresses (`Pubkey`), abstracted as naturals. -/
abbrev Pubkey := Nat

/-- `u32::MAX`. -/
def U32_MAX : Nat := 4294967295

/-- Modulus of `u32` arithmetic. -/
def U32_MOD : Nat := 4294967296

/-- `u32::checked_add`: `some (a + b)` unless the sum leaves `u32` range. -/
def checked_add (a b : Nat) : Option Nat :=
  if a + b ≤ U32_MAX then some (a + b) else none

/-- One wrapping `u32` addition, as performed by `iter().sum()` on `u32`
in a release build. -/
def u32_add (a b : Nat) : Nat := (a + b) % U32_MOD

/-- `child_weights.iter().sum::<u32>()` (line 136): left fold of wrapping
additions starting from 0, no overflow check. -/
def u32Sum (ws : List Nat) : Nat := ws.foldl u32_add 0

/-- `OperationType` (lib.rs lines 314-320). -/
inductive OperationType where
  | Created
  | Transferred
  | Mixed
  | Split
deriving DecidableEq

/-- `ErrorCode` (lib.rs lines 326-354). -/
inductive ErrorCode where
  | WeightMismatchOnTransfer
  | MixRequiresMultipleParents
  | SplitRequiresMultipleChildren
  | TooManyParents
  | TooManyChildren
  | ChildKeyWeightMismatch
  | SplitWeightMismatch
  | WeightOverflow
  | UnauthorizedUpdate
deriving DecidableEq

/-- `CrateRecord` (lib.rs lines 279-295). -/
structure CrateRecord where
  authority : Pubkey
  crate_id : String
  weight : Nat
  timestamp : Int
  hash : String
  ipfs_cid : String
  parent_crates : List Pubkey
  child_crates : List Pubkey
  parent_weights : List Nat
  split_distribution : List Nat
  operation_type : OperationType
deriving DecidableEq

/-- `CrateRecord::MAX_PARENTS` (lib.rs line 298). -/
def CrateRecord.MAX_PARENTS : Nat := 10

/-- `CrateRecord::MAX_CHILDREN` (lib.rs line 299). -/
def CrateRecord.MAX_CHILDREN : Nat := 10

/-- `create_crate` (lib.rs lines 10-31): builds the initial record with
empty lineage arrays; always succeeds. `authority` is the signer's key. -/
def create_crate (authority : Pubkey) (crate_id : String) (weight : Nat)
    (timestamp : Int) (hash ipfs_cid : String) : CrateRecord :=
  { authority := authority
    crate_id := crate_id
    weight := weight
    timestamp := timestamp
    hash := hash
    ipfs_cid := ipfs_cid
    parent_crates := []
    child_crates := []
    parent_weights := []
    split_distribution := []
    operation_type := OperationType.Created }

/-- `transfer_ownership` (lib.rs lines 34-63): requires the declared
weight to equal the parent's weight, then writes a one-parent record.
`parent_key` is the parent account's address, `parent` its data. -/
def transfer_ownership (authority : Pubkey) (crate_id : String)
    (weight : Nat) (timestamp : Int) (hash ipfs_cid : String)
    (parent_key : Pubkey) (parent : CrateRecord) :
    Except ErrorCode CrateRecord :=
  if weight = parent.weight then
    Except.ok
      { authority := authority
        crate_id := crate_id
        weight := weight
        timestamp := timestamp
        hash := hash
        ipfs_cid := ipfs_cid
        parent_crates := [parent_key]
        child_crates := []
        parent_weights := [parent.weight]
        split_distribution := []
        operation_type := OperationType.Transferred }
  else Except.error ErrorCode.WeightMismatchOnTransfer

/-- The loop of `mix_crates` (lib.rs lines 87-92): over the records in
`ctx.remaining_accounts`, accumulate `checked_add` of weights (failing
with `WeightOverflow`) and collect each parent's weight in order.
Returns the final `total_weight` and the `parent_weights` vector. -/
def mixFold (parents : List CrateRecord) (total : Nat) :
    Except ErrorCode (Nat × List Nat) :=
  match parents with
  | [] => Except.ok (total, [])
  | p :: ps =>
    match checked_add total p.weight with
    | none => Except.error ErrorCode.WeightOverflow
    | some t =>
      match mixFold ps t with
      | Except.error e => Except.error e
      | Except.ok (tw, pws) => Except.ok (tw, p.weight :: pws)

/-- `mix_crates` (lib.rs lines 66-107). `parent_keys` is the instruction
argument stored into `parent_crates`; `parents` are the records supplied
through `ctx.remaining_accounts`, whose weights are summed. -/
def mix_crates (authority : Pubkey) (crate_id : String) (timestamp : Int)
    (hash ipfs_cid : String) (parent_keys : List Pubkey)
    (parents : List CrateRecord) : Except ErrorCode CrateRecord :=
  if parent_keys.length < 2 then
    Except.error ErrorCode.MixRequiresMultipleParents
  else if CrateRecord.MAX_PARENTS < parent_keys.length then
    Except.error ErrorCode.TooManyParents
  else
    match mixFold parents 0 with
    | Except.error e => Except.error e
    | Except.ok (total_weight, parent_weights) =>
      Except.ok
        { authority := authority
          crate_id := crate_id
          weight := total_weight
          timestamp := timestamp
          hash := hash
          ipfs_cid := ipfs_cid
          parent_crates := parent_keys
          child_crates := []
          parent_weights := parent_weights
          split_distribution := []
          operation_type := OperationType.Mixed }

/-- `split_crate` (lib.rs lines 110-158): four ordered `require!`
checks, then one record for one specific child, carrying the full
`child_keys` and `child_weights` lists. -/
def split_crate (authority : Pubkey) (crate_id : String) (weight : Nat)
    (timestamp : Int) (hash ipfs_cid : String)
    (child_keys : List Pubkey) (child_weights : List Nat)
    (parent_key : Pubkey) (parent : CrateRecord) :
    Except ErrorCode CrateRecord :=
  if child_keys.length < 2 then
    Except.error ErrorCode.SplitRequiresMultipleChildren
  else if CrateRecord.MAX_CHILDREN < child_keys.length then
    Except.error ErrorCode.TooManyChildren
  else if child_keys.length ≠ child_weights.length then
    Except.error ErrorCode.ChildKeyWeightMismatch
  else if u32Sum child_weights ≠ parent.weight then
    Except.error ErrorCode.SplitWeightMismatch
  else
    Except.ok
      { authority := authority
        crate_id := crate_id
        weight := weight
        timestamp := timestamp
        hash := hash
        ipfs_cid := ipfs_cid
        parent_crates := [parent_key]
        child_crates := child_keys
        parent_weights := [parent.weight]
        split_distribution := child_weights
        operation_type := OperationType.Split }

/-- `update_parent_children` (lib.rs lines 161-174): signer must equal
the stored authority; then `child_crates` is replaced wholesale. Returns
the new state of the parent record. -/
def update_parent_children (signer : Pubkey) (parent : CrateRecord)
    (child_keys : List Pubkey) : Except ErrorCode CrateRecord :=
  if signer = parent.authority then
    Except.ok { parent with child_crates := child_keys }
  else Except.error ErrorCode.UnauthorizedUpdate

/-- `update_child_parent` (lib.rs lines 177-193): signer must equal the
stored authority; `parent_key` is appended to `parent_crates` unless
already present. Returns the new state of the child record. -/
def update_child_parent (signer : Pubkey) (child : CrateRecord)
    (parent_key : Pubkey) : Except ErrorCode CrateRecord :=
  if signer = child.authority then
    Except.ok
      (if parent_key ∈ child.parent_crates then child
       else { child with parent_crates := child.parent_crates ++ [parent_key] })
  else Except.error ErrorCode.UnauthorizedUpdate

/-! ### Helper lemmas about the mix loop -/

/-- When the full mathematical sum stays in `u32` range, the mix loop
succeeds and returns the exact sum together with the weights in order. -/
theorem mixFold_ok_of_le (parents : List CrateRecord) (total : Nat)
    (h : total + (parents.map CrateRecord.weight).sum ≤ U32_MAX) :
    mixFold parents total =
      Except.ok (total + (parents.map CrateRecord.weight).sum,
        parents.map CrateRecord.weight) := by
  induction parents generalizing total with
  | nil => simp [mixFold]
  | cons p ps ih =>
    simp only [List.map_cons, List.sum_cons] at h ⊢
    have hstep : total + p.weight ≤ U32_MAX := by omega
    have hrest : (total + p.weight) + (ps.map CrateRecord.weight).sum ≤ U32_MAX := by
      omega
    simp only [mixFold, checked_add, if_pos hstep, ih (total + p.weight) hrest]
    have : total + p.weight + (ps.map CrateRecord.weight).sum =
        total + (p.weight + (ps.map CrateRecord.weight).sum) := by omega
    simp [this]

/-- When the full mathematical sum leaves `u32` range, the mix loop
fails with `WeightOverflow`: no wrapping ever happens. -/
theorem mixFold_overflow (parents : List CrateRecord) (total : Nat)
    (htot : total ≤ U32_MAX)
    (h : U32_MAX < total + (parents.map CrateRecord.weight).sum) :
    mixFold parents total = Except.error ErrorCode.WeightOverflow := by
  induction parents generalizing total with
  | nil => simp at h; omega
  | cons p ps ih =>
    simp only [List.map_cons, List.sum_cons] at h
    by_cases hstep : total + p.weight ≤ U32_MAX
    · have hrest : U32_MAX < (total + p.weight) + (ps.map CrateRecord.weight).sum := by
        omega
      simp [mixFold, checked_add, if_pos hstep, ih (total + p.weight) hstep hrest]
    · simp [mixFold, checked_add, if_neg hstep]

/-- The mix loop succeeds exactly when the sum fits, and then its result
is determined: the exact sum and the in-order weights. -/
theorem mixFold_ok_iff (parents : List CrateRecord) (tw : Nat)
    (pws : List Nat) :
    mixFold parents 0 = Except.ok (tw, pws) ↔
      (parents.map CrateRecord.weight).sum ≤ U32_MAX ∧
        tw = (parents.map CrateRecord.weight).sum ∧
        pws = parents.map CrateRecord.weight := by
  constructor
  · intro h
    by_cases hle : (parents.map CrateRecord.weight).sum ≤ U32_MAX
    · have := mixFold_ok_of_le parents 0 (by omega)
      rw [this] at h
      simp at h
      exact ⟨hle, by omega, h.2.symm⟩
    · have := mixFold_overflow parents 0 (by simp [U32_MAX]) (by omega)
      rw [this] at h
      exact absurd h (by simp)
  · rintro ⟨hle, rfl, rfl⟩
    have := mixFold_ok_of_le parents 0 (by omega)
    simpa using this

/-- Full characterization of a successful `mix_crates` call: the record
written is determined by the arguments, with the exact weight sum and
the in-order parent weights. -/
theorem mix_crates_ok_elim (a : Pubkey) (cid : String) (ts : Int)
    (hs ic : String) (pkeys : List Pubkey) (parents : List CrateRecord)
    (r : CrateRecord)
    (h : mix_crates a cid ts hs ic pkeys parents = Except.ok r) :
    r = { authority := a
          crate_id := cid
          weight := (parents.map CrateRecord.weight).sum
          timestamp := ts
          hash := hs
          ipfs_cid := ic
          parent_crates := pkeys
          child_crates := []
          parent_weights := parents.map CrateRecord.weight
          split_distribution := []
          operation_type := OperationType.Mixed } := by
  simp only [mix_crates] at h
  split at h
  · exact absurd h (by simp)
  · split at h
    · exact absurd h (by simp)
    · split at h
      · exact absurd h (by simp)
      · rename_i tw pws heq
        obtain ⟨hle, htw, hpw⟩ := (mixFold_ok_iff parents tw pws).mp heq
        rw [Except.ok.injEq] at h
        subst h
        subst htw
        subst hpw
        rfl

/-! ### Sample records used by witnesses -/

/-- A created record of weight 3 (used in witnesses). -/
def sampleP3 : CrateRecord := create_crate 1 "x" 3 0 "h" "i"

/-- A created record of weight 4 (used in witnesses). -/
def sampleP4 : CrateRecord := create_crate 1 "y" 4 0 "h" "i"

/-- The parents handed to the witness mix call. -/
def mixWitParents : List CrateRecord := [sampleP3, sampleP4]

/-- The record the witness mix call writes. -/
def mixWitRecord : CrateRecord :=
  { authority := 9
    crate_id := "m"
    weight := 7
    timestamp := 0
    hash := "h"
    ipfs_cid := "i"
    parent_crates := [100, 101]
    child_crates := []
    parent_weights := [3, 4]
    split_distribution := []
    operation_type := OperationType.Mixed }

/-! ### C1 — mix conservation -/

/-- C1: for every successful `mix_crates` call over parent records, the
new record's weight equals the exact integer sum of the parents' weights,
with no rounding, and its `parent_weights` sequence records each parent's
weight in order. -/
theorem mix_crates_conservation (a : Pubkey) (cid : String) (ts : Int)
    (hs ic : String) (pkeys : List Pubkey) (parents : List CrateRecord)
    (r : CrateRecord)
    (h : mix_crates a cid ts hs ic pkeys parents = Except.ok r) :
    r.weight = (parents.map CrateRecord.weight).sum ∧
      r.parent_weights = parents.map CrateRecord.weight := by
  rw [mix_crates_ok_elim a cid ts hs ic pkeys parents r h]
  exact ⟨rfl, rfl⟩

/-- C1 witness: mixing parents of weights 3 and 4 writes a record of
weight 7 with parent weights [3, 4]. -/
theorem mix_crates_conservation_witness :
    mixWitRecord.weight = (mixWitParents.map CrateRecord.weight).sum ∧
      mixWitRecord.parent_weights = mixWitParents.map CrateRecord.weight :=
  mix_crates_conservation 9 "m" 0 "h" "i" [100, 101] mixWitParents
    mixWitRecord rfl

/-! ### C6 — mix overflow -/

/-- C6: every `mix_crates` call that passes the arity checks but whose
parents' weights sum beyond `u32::MAX` fails with `WeightOverflow` (so no
record is written) rather than wrapping modulo `2^32`. -/
theorem mix_crates_overflow (a : Pubkey) (cid : String) (ts : Int)
    (hs ic : String) (pkeys : List Pubkey) (parents : List CrateRecord)
    (h2 : 2 ≤ pkeys.length) (h10 : pkeys.length ≤ CrateRecord.MAX_PARENTS)
    (hsum : U32_MAX < (parents.map CrateRecord.weight).sum) :
    mix_crates a cid ts hs ic pkeys parents =
      Except.error ErrorCode.WeightOverflow := by
  have hov := mixFold_overflow parents 0 (by simp [U32_MAX]) (by omega)
  simp only [mix_crates]
  rw [if_neg (by omega), if_neg (by omega), hov]

/-- C6 witness: mixing parents of weights 4294967295 and 1 overflows. -/
theorem mix_crates_overflow_witness :
    mix_crates 9 "m" 0 "h" "i" [100, 101]
        [create_crate 1 "x" 4294967295 0 "h" "i", create_crate 1 "y" 1 0 "h" "i"] =
      Except.error ErrorCode.WeightOverflow :=
  mix_crates_overflow 9 "m" 0 "h" "i" [100, 101]
    [create_crate 1 "x" 4294967295 0 "h" "i", create_crate 1 "y" 1 0 "h" "i"]
    (by decide) (by decide) (by decide)

/-! ### C3 — transfer -/

/-- C3: `transfer_ownership` succeeds if and only if the declared weight
equals the parent's weight, failing with `WeightMismatchOnTransfer`
otherwise; on success the record has the parent's weight, the single
parent reference, `parent_weights = [parent.weight]`, and operation type
`Transferred`. -/
theorem transfer_ownership_spec (a : Pubkey) (cid : String) (w : Nat)
    (ts : Int) (hs ic : String) (pk : Pubkey) (parent : CrateRecord) :
    (w = parent.weight →
      transfer_ownership a cid w ts hs ic pk parent =
        Except.ok
          { authority := a
            crate_id := cid
            weight := parent.weight
            timestamp := ts
            hash := hs
            ipfs_cid := ic
            parent_crates := [pk]
            child_crates := []
            parent_weights := [parent.weight]
            split_distribution := []
            operation_type := OperationType.Transferred }) ∧
    (w ≠ parent.weight →
      transfer_ownership a cid w ts hs ic pk parent =
        Except.error ErrorCode.WeightMismatchOnTransfer) := by
  constructor
  · intro hw
    subst hw
    simp [transfer_ownership]
  · intro hw
    simp [transfer_ownership, hw]

/-- C3 witness: transferring a parent of weight 3 succeeds at declared
weight 3 and fails with `WeightMismatchOnTransfer` at declared weight 4. -/
theorem transfer_ownership_spec_witness :
    transfer_ownership 2 "t" 3 0 "h" "i" 50 sampleP3 =
      Except.ok
        { authority := 2
          crate_id := "t"
          weight := 3
          timestamp := 0
          hash := "h"
          ipfs_cid := "i"
          parent_crates := [50]
          child_crates := []
          parent_weights := [3]
          split_distribution := []
          operation_type := OperationType.Transferred } ∧
    transfer_ownership 2 "t" 4 0 "h" "i" 50 sampleP3 =
      Except.error ErrorCode.WeightMismatchOnTransfer :=
  ⟨(transfer_ownership_spec 2 "t" 3 0 "h" "i" 50 sampleP3).1 rfl,
   (transfer_ownership_spec 2 "t" 4 0 "h" "i" 50 sampleP3).2 (by decide)⟩

/-! ### C4 — split error order -/

/-- C4: `split_crate` checks its preconditions in order and returns the
error of the first failing check (an error return writes no record):
fewer than 2 child keys gives `SplitRequiresMultipleChildren`; more than
10 gives `TooManyChildren`; a key/weight length mismatch gives
`ChildKeyWeightMismatch`; child weights not summing to the parent's
weight gives `SplitWeightMismatch`. -/
theorem split_crate_error_order (a : Pubkey) (cid : String) (w : Nat)
    (ts : Int) (hs ic : String) (cks : List Pubkey) (cws : List Nat)
    (pk : Pubkey) (parent : CrateRecord) :
    (cks.length < 2 →
      split_crate a cid w ts hs ic cks cws pk parent =
        Except.error ErrorCode.SplitRequiresMultipleChildren) ∧
    (2 ≤ cks.length → CrateRecord.MAX_CHILDREN < cks.length →
      split_crate a cid w ts hs ic cks cws pk parent =
        Except.error ErrorCode.TooManyChildren) ∧
    (2 ≤ cks.length → cks.length ≤ CrateRecord.MAX_CHILDREN →
      cks.length ≠ cws.length →
      split_crate a cid w ts hs ic cks cws pk parent =
        Except.error ErrorCode.ChildKeyWeightMismatch) ∧
    (2 ≤ cks.length → cks.length ≤ CrateRecord.MAX_CHILDREN →
      cks.length = cws.length → u32Sum cws ≠ parent.weight →
      split_crate a cid w ts hs ic cks cws pk parent =
        Except.error ErrorCode.SplitWeightMismatch) := by
  refine ⟨?_, ?_, ?_, ?_⟩
  · intro h1
    simp only [split_crate]
    rw [if_pos h1]
  · intro h1 h2
    simp only [split_crate]
    rw [if_neg (by omega), if_pos h2]
  · intro h1 h2 h3
    simp only [split_crate]
    rw [if_neg (by omega), if_neg (by omega), if_pos h3]
  · intro h1 h2 h3 h4
    simp only [split_crate]
    rw [if_neg (by omega), if_neg (by omega), if_neg (by omega), if_pos h4]

/-- C4 witness: each of the four checks fires on a concrete input, in
order: 0 children; 11 children; 2 keys vs 1 weight; weights [1, 1]
against a parent of weight 3. -/
theorem split_crate_error_order_witness :
    split_crate 9 "s" 1 0 "h" "i" [] [] 50 sampleP3 =
      Except.error ErrorCode.SplitRequiresMultipleChildren ∧
    split_crate 9 "s" 1 0 "h" "i" [1, 2, 3, 4, 5, 6, 7, 8, 9, 10, 11] []
        50 sampleP3 =
      Except.error ErrorCode.TooManyChildren ∧
    split_crate 9 "s" 1 0 "h" "i" [20, 21] [1] 50 sampleP3 =
      Except.error ErrorCode.ChildKeyWeightMismatch ∧
    split_crate 9 "s" 1 0 "h" "i" [20, 21] [1, 1] 50 sampleP3 =
      Except.error ErrorCode.SplitWeightMismatch :=
  ⟨(split_crate_error_order 9 "s" 1 0 "h" "i" [] [] 50 sampleP3).1
      (by decide),
   (split_crate_error_order 9 "s" 1 0 "h" "i"
      [1, 2, 3, 4, 5, 6, 7, 8, 9, 10, 11] [] 50 sampleP3).2.1
      (by decide) (by decide),
   (split_crate_error_order 9 "s" 1 0 "h" "i" [20, 21] [1] 50
      sampleP3).2.2.1 (by decide) (by decide) (by decide),
   (split_crate_error_order 9 "s" 1 0 "h" "i" [20, 21] [1, 1] 50
      sampleP3).2.2.2 (by decide) (by decide) (by decide) (by decide)⟩

/-! ### C5 — split success shape -/

/-- Full characterization of the record a successful `split_crate` call
writes. -/
theorem split_crate_ok_elim (a : Pubkey) (cid : String) (w : Nat)
    (ts : Int) (hs ic : String) (cks : List Pubkey) (cws : List Nat)
    (pk : Pubkey) (parent : CrateRecord) (r : CrateRecord)
    (h : split_crate a cid w ts hs ic cks cws pk parent = Except.ok r) :
    r = { authority := a
          crate_id := cid
          weight := w
          timestamp := ts
          hash := hs
          ipfs_cid := ic
          parent_crates := [pk]
          child_crates := cks
          parent_weights := [parent.weight]
          split_distribution := cws
          operation_type := OperationType.Split } := by
  simp only [split_crate] at h
  split at h
  · exact absurd h (by simp)
  · split at h
    · exact absurd h (by simp)
    · split at h
      · exact absurd h (by simp)
      · split at h
        · exact absurd h (by simp)
        · rw [Except.ok.injEq] at h
          exact h.symm

/-- C5: every successful `split_crate` call writes one record whose
weight is the caller-supplied `weight` argument (no cross-check against
`child_weights`), whose `child_crates` is the full `child_keys` list,
whose `split_distribution` is the full `child_weights` list, with the
single parent reference, `parent_weights = [parent.weight]`, and
operation type `Split`. -/
theorem split_crate_success (a : Pubkey) (cid : String) (w : Nat)
    (ts : Int) (hs ic : String) (cks : List Pubkey) (cws : List Nat)
    (pk : Pubkey) (parent : CrateRecord) (r : CrateRecord)
    (h : split_crate a cid w ts hs ic cks cws pk parent = Except.ok r) :
    r.weight = w ∧ r.child_crates = cks ∧ r.split_distribution = cws ∧
      r.parent_crates = [pk] ∧ r.parent_weights = [parent.weight] ∧
      r.operation_type = OperationType.Split := by
  rw [split_crate_ok_elim a cid w ts hs ic cks cws pk parent r h]
  exact ⟨rfl, rfl, rfl, rfl, rfl, rfl⟩

/-- The record the witness split call writes: note its weight 999
differs from every entry of the accepted distribution [1, 2]. -/
def splitWitRecord : CrateRecord :=
  { authority := 9
    crate_id := "s"
    weight := 999
    timestamp := 0
    hash := "h"
    ipfs_cid := "i"
    parent_crates := [50]
    child_crates := [20, 21]
    parent_weights := [3]
    split_distribution := [1, 2]
    operation_type := OperationType.Split }

/-- C5 witness: splitting a parent of weight 3 into declared weights
[1, 2] succeeds even with caller-supplied child weight 999, which
matches no entry of the distribution. -/
theorem split_crate_success_witness :
    splitWitRecord.weight = 999 ∧ splitWitRecord.child_crates = [20, 21] ∧
      splitWitRecord.split_distribution = [1, 2] ∧
      splitWitRecord.parent_crates = [50] ∧
      splitWitRecord.parent_weights = [sampleP3.weight] ∧
      splitWitRecord.operation_type = OperationType.Split :=
  split_crate_success 9 "s" 999 0 "h" "i" [20, 21] [1, 2] 50 sampleP3
    splitWitRecord rfl

/-! ### C2 — parent_crates / parent_weights lengths -/

/-- A created record owned by authority 7, used for linking calls. -/
def sampleOwned : CrateRecord := create_crate 7 "c" 5 0 "h" "i"

/-- C2 counterexample: `update_child_parent` (authorized, new key)
writes a record whose `parent_crates` has length 1 while its
`parent_weights` still has length 0, so the claimed equality fails on a
record the operation writes. -/
theorem update_child_parent_length_cex :
    update_child_parent 7 sampleOwned 42 =
      Except.ok { sampleOwned with parent_crates := [42] } ∧
    ({ sampleOwned with parent_crates := [42] } : CrateRecord).parent_crates.length ≠
      ({ sampleOwned with parent_crates := [42] } : CrateRecord).parent_weights.length :=
  ⟨rfl, by decide⟩

/-- C2 amended: the four creation operations write records with
`parent_crates` and `parent_weights` of equal length — `mix_crates`
provided it is given as many parent records as parent keys;
`update_parent_children` leaves both fields untouched; and
`update_child_parent` preserves the record exactly when the parent key
is already present (otherwise it lengthens `parent_crates` alone). -/
theorem parent_lengths_amended :
    (∀ a cid w ts hs ic,
      (create_crate a cid w ts hs ic).parent_crates.length =
        (create_crate a cid w ts hs ic).parent_weights.length) ∧
    (∀ a cid w ts hs ic pk parent r,
      transfer_ownership a cid w ts hs ic pk parent = Except.ok r →
      r.parent_crates.length = r.parent_weights.length) ∧
    (∀ a cid ts hs ic pkeys parents r, pkeys.length = parents.length →
      mix_crates a cid ts hs ic pkeys parents = Except.ok r →
      r.parent_crates.length = r.parent_weights.length) ∧
    (∀ a cid w ts hs ic cks cws pk parent r,
      split_crate a cid w ts hs ic cks cws pk parent = Except.ok r →
      r.parent_crates.length = r.parent_weights.length) ∧
    (∀ s parent cks r,
      update_parent_children s parent cks = Except.ok r →
      r.parent_crates = parent.parent_crates ∧
        r.parent_weights = parent.parent_weights) ∧
    (∀ s child pk r, pk ∈ child.parent_crates →
      update_child_parent s child pk = Except.ok r → r = child) := by
  refine ⟨?_, ?_, ?_, ?_, ?_, ?_⟩
  · intro a cid w ts hs ic
    rfl
  · intro a cid w ts hs ic pk parent r h
    simp only [transfer_ownership] at h
    split at h
    · rw [Except.ok.injEq] at h
      subst h
      rfl
    · exact absurd h (by simp)
  · intro a cid ts hs ic pkeys parents r hlen h
    rw [mix_crates_ok_elim a cid ts hs ic pkeys parents r h]
    simpa using hlen
  · intro a cid w ts hs ic cks cws pk parent r h
    rw [split_crate_ok_elim a cid w ts hs ic cks cws pk parent r h]
    rfl
  · intro s parent cks r h
    simp only [update_parent_children] at h
    split at h
    · rw [Except.ok.injEq] at h
      subst h
      exact ⟨rfl, rfl⟩
    · exact absurd h (by simp)
  · intro s child pk r hmem h
    simp only [update_child_parent, if_pos hmem] at h
    split at h
    · rw [Except.ok.injEq] at h
      exact h.symm
    · exact absurd h (by simp)

/-- C2 amended witness: the witness mix call (2 keys, 2 parent records)
writes a record with parent lists of equal length. -/
theorem parent_lengths_amended_witness :
    mixWitRecord.parent_crates.length = mixWitRecord.parent_weights.length :=
  parent_lengths_amended.2.2.1 9 "m" 0 "h" "i" [100, 101] mixWitParents
    mixWitRecord rfl rfl

/-! ### C7 — the 10-entry bound under the linking operations -/

/-- C7 failing input: `update_parent_children` performs no bound check,
so an authorized call with 11 child keys succeeds and stores an
11-entry `child_crates`, exceeding the `MAX_CHILDREN = 10` bound the
program declares and allocates account space for (`mix_crates` and
`split_crate` both enforce it on their inputs). -/
theorem update_parent_children_exceeds_bound :
    update_parent_children 7 sampleOwned
        [1, 2, 3, 4, 5, 6, 7, 8, 9, 10, 11] =
      Except.ok
        { sampleOwned with child_crates := [1, 2, 3, 4, 5, 6, 7, 8, 9, 10, 11] } ∧
    CrateRecord.MAX_CHILDREN <
      ({ sampleOwned with child_crates := [1, 2, 3, 4, 5, 6, 7, 8, 9, 10, 11] } :
        CrateRecord).child_crates.length :=
  ⟨rfl, by decide⟩

/-! ### C8 — authorization on the linking operations -/

/-- C8: both linking operations invoked by a signer other than the
record's stored authority fail with `UnauthorizedUpdate`; the failing
call returns no record state, so the stored record is untouched. -/
theorem unauthorized_update_rejected (s : Pubkey) (rec : CrateRecord)
    (cks : List Pubkey) (pk : Pubkey) (h : s ≠ rec.authority) :
    update_parent_children s rec cks =
      Except.error ErrorCode.UnauthorizedUpdate ∧
    update_child_parent s rec pk =
      Except.error ErrorCode.UnauthorizedUpdate := by
  constructor
  · simp [update_parent_children, h]
  · simp [update_child_parent, h]

/-- C8 witness: signer 2 against a record owned by authority 7. -/
theorem unauthorized_update_rejected_witness :
    update_parent_children 2 sampleOwned [3] =
      Except.error ErrorCode.UnauthorizedUpdate ∧
    update_child_parent 2 sampleOwned 3 =
      Except.error ErrorCode.UnauthorizedUpdate :=
  unauthorized_update_rejected 2 sampleOwned [3] 3 (by decide)

/-! ### C9 — idempotent linking -/

/-- A mixed record carrying the duplicated parent key 5 twice, exactly
as written by the mix call in the counterexample below. -/
def dupParentRec : CrateRecord :=
  { authority := 1
    crate_id := "m"
    weight := 3
    timestamp := 0
    hash := "h"
    ipfs_cid := "i"
    parent_crates := [5, 5]
    child_crates := []
    parent_weights := [1, 2]
    split_distribution := []
    operation_type := OperationType.Mixed }

/-- C9 counterexample: `mix_crates` accepts duplicated parent keys, so
a reachable child record holds the reference 5 twice; an authorized
`update_child_parent` call with key 5 returns the record unchanged, so
calling it twice also leaves the reference occurring twice — not
exactly once. -/
theorem update_child_parent_exactly_once_cex :
    mix_crates 1 "m" 0 "h" "i" [5, 5]
        [create_crate 1 "x" 1 0 "h" "i", create_crate 1 "y" 2 0 "h" "i"] =
      Except.ok dupParentRec ∧
    update_child_parent 1 dupParentRec 5 = Except.ok dupParentRec ∧
    dupParentRec.parent_crates.count 5 ≠ 1 :=
  ⟨rfl, rfl, by decide⟩

/-- C9 amended: an authorized `update_child_parent` call is idempotent —
a second call with the same key returns the same record; the key is in
the result; when the key was not already present it occurs in the result
exactly once; and a call whose key is already present returns the record
unchanged. -/
theorem update_child_parent_idempotent (s : Pubkey) (child : CrateRecord)
    (pk : Pubkey) (r : CrateRecord)
    (h : update_child_parent s child pk = Except.ok r) :
    update_child_parent s r pk = Except.ok r ∧
    pk ∈ r.parent_crates ∧
    (pk ∉ child.parent_crates → r.parent_crates.count pk = 1) ∧
    (pk ∈ child.parent_crates → r = child) := by
  simp only [update_child_parent] at h
  split at h
  · rename_i hs
    rw [Except.ok.injEq] at h
    by_cases hmem : pk ∈ child.parent_crates
    · rw [if_pos hmem] at h
      subst h
      refine ⟨?_, hmem, fun hn => absurd hmem hn, fun _ => rfl⟩
      simp only [update_child_parent, if_pos hmem]
      rw [if_pos hs]
    · rw [if_neg hmem] at h
      subst h
      have hmem' : pk ∈ child.parent_crates ++ [pk] := by simp
      refine ⟨?_, hmem', ?_, fun hc => absurd hc hmem⟩
      · simp only [update_child_parent]
        rw [if_pos hs, if_pos hmem']
      · intro _
        simp [List.count_append, List.count_eq_zero.mpr hmem]
  · exact absurd h (by simp)

/-- The child record of the C9 witness before linking (no parents). -/
def childWit : CrateRecord := create_crate 1 "c" 5 0 "h" "i"

/-- The child record of the C9 witness after linking parent 42. -/
def childWitAdded : CrateRecord := { childWit with parent_crates := [42] }

/-- C9 witness: after linking parent 42 into a fresh record, a second
authorized call returns the record unchanged and 42 occurs exactly
once. -/
theorem update_child_parent_idempotent_witness :
    update_child_parent 1 childWitAdded 42 = Except.ok childWitAdded ∧
    childWitAdded.parent_crates.count 42 = 1 := by
  have t := update_child_parent_idempotent 1 childWit 42 childWitAdded rfl
  exact ⟨t.1, t.2.2.1 (by decide)⟩

/-! ### C10 — split sums without overflow checking -/

/-- Whether an instruction result is the `WeightOverflow` error. -/
def isWeightOverflow : Except ErrorCode CrateRecord → Bool
  | Except.error ErrorCode.WeightOverflow => true
  | _ => false

/-- C10: `split_crate` sums `child_weights` with wrapping 32-bit
accumulation: a distribution [4294967295, 2], whose mathematical sum
4294967297 exceeds `2^32` but wraps to 1, passes the
`SplitWeightMismatch` check against a parent of weight 1 and the call
succeeds; moreover no `split_crate` call ever returns
`WeightOverflow`. -/
theorem split_crate_wrapping_sum :
    (U32_MOD < ([4294967295, 2] : List Nat).sum) ∧
    u32Sum [4294967295, 2] = 1 ∧
    split_crate 9 "s" 1 0 "h" "i" [20, 21] [4294967295, 2] 50
        (create_crate 1 "p" 1 0 "h" "i") =
      Except.ok
        { authority := 9
          crate_id := "s"
          weight := 1
          timestamp := 0
          hash := "h"
          ipfs_cid := "i"
          parent_crates := [50]
          child_crates := [20, 21]
          parent_weights := [1]
          split_distribution := [4294967295, 2]
          operation_type := OperationType.Split } ∧
    (∀ a cid w ts hs ic cks cws pk parent,
      isWeightOverflow (split_crate a cid w ts hs ic cks cws pk parent) =
        false) := by
  refine ⟨by decide, by decide, rfl, ?_⟩
  intro a cid w ts hs ic cks cws pk parent
  simp only [split_crate]
  split
  · rfl
  · split
    · rfl
    · split
      · rfl
      · split
        · rfl
        · rfl

end Nautilink
